import Mathlib

/-!
Shallow embedding of `src/state/reducers/orderBook.reducer.ts`, the
incremental order-book aggregation engine: state store, level aggregator
and visible-window scale computation, together with theorems settling the
stated claims about them.

Modelling conventions:
* `Price`, `Size`, `Total` (branded numbers in the source) are `Nat`
  (exact, non-negative quantities); visible-window cursor indices are
  `Int`, since the source stores `size - 1` which is `-1` for an empty
  collection.
* A JavaScript `Map` is modelled as an association list in insertion
  order (`Map.set` on an existing key replaces the value in place,
  otherwise appends; `Map.delete` filters the key out; iteration order is
  list order), matching the ES2015 `Map` contract.
* `Array.prototype.sort` with a price comparator is modelled by the
  stable `List.insertionSort` under the corresponding key order.
* A thrown exception (a failed `assert`, or a `TypeError` from reading
  `.total` of `undefined` after an out-of-range array index) is modelled
  by `Option`: handlers that can throw return `none` in exactly those
  cases.
-/

/-- Aggregated price level stored in a side collection, mirroring the
`CalculatedOrderDetails` interface of the source: `price`, `size` and the
cumulative `total`. -/
structure CalculatedOrderDetails where
  price : Nat
  size : Nat
  total : Nat
  deriving DecidableEq, Repr

/-- Value type of the temporary working map in `handleDataUpdate`: either a
raw delta entry (`RawDetails`) or an existing calculated level. -/
inductive OrderDetails where
  | raw (price size : Nat)
  | calcd (details : CalculatedOrderDetails)
  deriving DecidableEq, Repr

/-- Size of an `OrderDetails` value (`value.size` in the source). -/
def OrderDetails.size : OrderDetails → Nat
  | .raw _ s => s
  | .calcd c => c.size

/-- Model of `Map.set`: replace the value at an existing key in place,
otherwise append the new entry (insertion order preserved). -/
def mapSet {β : Type} (m : List (Nat × β)) (k : Nat) (v : β) : List (Nat × β) :=
  if m.any (fun e => e.1 == k) then
    m.map (fun e => if e.1 == k then (k, v) else e)
  else
    m ++ [(k, v)]

/-- Model of `Map.delete`: remove the entry with the given key. -/
def mapDelete {β : Type} (m : List (Nat × β)) (k : Nat) : List (Nat × β) :=
  m.filter (fun e => e.1 != k)

/-- Ascending-price comparator order (`(a, b) => priceA - priceB`). -/
def keyLE {β : Type} (a b : Nat × β) : Prop := a.1 ≤ b.1

/-- Descending-price comparator order (`(a, b) => priceB - priceA`). -/
def keyGE {β : Type} (a b : Nat × β) : Prop := b.1 ≤ a.1

instance {β : Type} : DecidableRel (@keyLE β) :=
  fun a b => inferInstanceAs (Decidable (a.1 ≤ b.1))

instance {β : Type} : DecidableRel (@keyGE β) :=
  fun a b => inferInstanceAs (Decidable (b.1 ≤ a.1))

instance {β : Type} : IsTotal (Nat × β) keyLE := ⟨fun a b => Nat.le_total a.1 b.1⟩

instance {β : Type} : IsTrans (Nat × β) keyLE := ⟨fun _ _ _ h h2 => Nat.le_trans h h2⟩

instance {β : Type} : IsTotal (Nat × β) keyGE := ⟨fun a b => Nat.le_total b.1 a.1⟩

instance {β : Type} : IsTrans (Nat × β) keyGE := ⟨fun _ _ _ h h2 => Nat.le_trans h2 h⟩

/-- Stable sort by ascending price, modelling `.sort(([a], [b]) => a - b)`. -/
def sortAsc {β : Type} (l : List (Nat × β)) : List (Nat × β) :=
  List.insertionSort keyLE l

/-- Stable sort by descending price, modelling `.sort(([a], [b]) => b - a)`. -/
def sortDesc {β : Type} (l : List (Nat × β)) : List (Nat × β) :=
  List.insertionSort keyGE l

/-- Reducer step of the snapshot aggregation fold: skip `size == 0`
entries, otherwise advance the running total and `set` the calculated
level keyed by price. -/
def generateCalculatedOrderDetails
    (acc : Nat × List (Nat × CalculatedOrderDetails)) (entry : Nat × Nat) :
    Nat × List (Nat × CalculatedOrderDetails) :=
  if entry.2 = 0 then acc
  else (acc.1 + entry.2, mapSet acc.2 entry.1 ⟨entry.1, entry.2, acc.1 + entry.2⟩)

/-- Reducer step of the delta re-aggregation fold: same as the snapshot
step but reading the size out of an `OrderDetails` map value. -/
def generateCalculatedOrderDetailsFromExisting
    (acc : Nat × List (Nat × CalculatedOrderDetails)) (entry : Nat × OrderDetails) :
    Nat × List (Nat × CalculatedOrderDetails) :=
  if entry.2.size = 0 then acc
  else (acc.1 + entry.2.size, mapSet acc.2 entry.1 ⟨entry.1, entry.2.size, acc.1 + entry.2.size⟩)

/-- Payload of a `SnapshotReceived` action. -/
structure SnapshotPayload where
  product_id : Nat
  numLevels : Nat
  asks : List (Nat × Nat)
  bids : List (Nat × Nat)
  deriving DecidableEq, Repr

/-- Payload of a `DataUpdate` (delta) action. -/
structure DeltaPayload where
  asks : List (Nat × Nat)
  bids : List (Nat × Nat)
  deriving DecidableEq, Repr

/-- Common data of the `Connected` and `Disconnected` variants: the two
side collections, product metadata, and the `maxTotal` record (the two
visible-window cursors plus the shared scale `totalValue`). -/
structure ConnectedData where
  asks : List (Nat × CalculatedOrderDetails)
  bids : List (Nat × CalculatedOrderDetails)
  productId : Nat
  numLevels : Nat
  lastVisibleAsksIndex : Int
  lastVisibleBidsIndex : Int
  totalValue : Nat
  deriving DecidableEq, Repr

/-- The four-variant lifecycle state `OrderBookState`. -/
inductive OrderBookState where
  | neverLoaded
  | connectedWaitingForData
  | connected (data : ConnectedData)
  | disconnected (data : ConnectedData)
  deriving DecidableEq, Repr

/-- Actions of the reducer (`OrderBookActionTypes`). -/
inductive OrderBookAction where
  | openStream
  | closeStream
  | snapshotReceived (payload : SnapshotPayload)
  | dataUpdate (payload : DeltaPayload)
  | socketConnected
  | socketDisconnected
  | updateBidsLastVisibleIndex (index : Int)
  | updateAsksLastVisibleIndex (index : Int)
  | unsupportedBackendResponse
  | infoReceived
  | subscribeConfirmationReceived
  deriving DecidableEq, Repr

/-- Sort a raw (price, size) list ascending and aggregate it, returning
(grand total, collection); the asks half of `handleSnapshotReceived`. -/
def aggregateAsc (l : List (Nat × Nat)) : Nat × List (Nat × CalculatedOrderDetails) :=
  (sortAsc l).foldl generateCalculatedOrderDetails (0, [])

/-- Sort a raw (price, size) list descending and aggregate it; the bids
half of `handleSnapshotReceived`. -/
def aggregateDesc (l : List (Nat × Nat)) : Nat × List (Nat × CalculatedOrderDetails) :=
  (sortDesc l).foldl generateCalculatedOrderDetails (0, [])

/-- Source function `handleSnapshotReceived`: aggregate both sides from scratch, enter
`Connected`; spread the previous `maxTotal` cursors only when the previous
state is exactly `Connected`, otherwise default both cursors to
`size - 1`; `totalValue` is `Math.max(asksTotal, bidsTotal)` (the two
grand totals). -/
def handleSnapshotReceived (payload : SnapshotPayload) (prevState : OrderBookState) :
    OrderBookState :=
  let a := aggregateAsc payload.asks
  let b := aggregateDesc payload.bids
  let cursors : Int × Int :=
    match prevState with
    | .connected d => (d.lastVisibleAsksIndex, d.lastVisibleBidsIndex)
    | _ => ((a.2.length : Int) - 1, (b.2.length : Int) - 1)
  .connected
    { asks := a.2
      bids := b.2
      productId := payload.product_id
      numLevels := payload.numLevels
      lastVisibleAsksIndex := cursors.1
      lastVisibleBidsIndex := cursors.2
      totalValue := max a.1 b.1 }

/-- JavaScript array indexing `arr[i]` with an `Int` index: `undefined`
(`none`) for a negative or out-of-range index. -/
def jsIndex {γ : Type} (l : List γ) (i : Int) : Option γ :=
  if i < 0 then none else l.get? i.toNat

/-- The lookup `Array.from(side.values())[Math.min(idx, side.size - 1)].total`:
`none` models the `TypeError` thrown when the index misses (in particular
`-1` on an empty collection). -/
def scaleLookup (side : List (Nat × CalculatedOrderDetails)) (idx : Int) : Option Nat :=
  (jsIndex side (min idx ((side.length : Int) - 1))).map (fun e => e.2.total)

/-- The `Math.max` of the two clamped-cursor totals as the source computes
it (bids lookup written first); `none` if either lookup throws. -/
def computeTotalValue (asks bids : List (Nat × CalculatedOrderDetails))
    (asksIdx bidsIdx : Int) : Option Nat :=
  match scaleLookup bids bidsIdx, scaleLookup asks asksIdx with
  | some b, some a => some (max b a)
  | _, _ => none

/-- Merge loop `payload.asks.forEach` of `handleDataUpdate`:
`size == 0` deletes the price, otherwise upsert a `RawDetails` entry. -/
def applyAskDeltas (m : List (Nat × OrderDetails)) (deltas : List (Nat × Nat)) :
    List (Nat × OrderDetails) :=
  deltas.foldl
    (fun m e => if e.2 = 0 then mapDelete m e.1 else mapSet m e.1 (.raw e.1 e.2)) m

/-- Merge loop `payload.bids.forEach` of `handleDataUpdate`:
`size == 0` entries are skipped (no delete), otherwise upsert. -/
def applyBidDeltas (m : List (Nat × OrderDetails)) (deltas : List (Nat × Nat)) :
    List (Nat × OrderDetails) :=
  deltas.foldl
    (fun m e => if e.2 = 0 then m else mapSet m e.1 (.raw e.1 e.2)) m

/-- View a side collection as a working map of `OrderDetails`
(`new Map<Price, OrderDetails>(prevState.asks)`). -/
def toWorkingMap (side : List (Nat × CalculatedOrderDetails)) : List (Nat × OrderDetails) :=
  side.map (fun e => (e.1, OrderDetails.calcd e.2))

/-- Collection-rebuilding stage of `handleDataUpdate`: merge the deltas
into working copies of both collections, then re-sort and re-aggregate
each side, returning (new asks, new bids). -/
def dataUpdateCollections (payload : DeltaPayload) (d : ConnectedData) :
    List (Nat × CalculatedOrderDetails) × List (Nat × CalculatedOrderDetails) :=
  let asksTmp := applyAskDeltas (toWorkingMap d.asks) payload.asks
  let bidsTmp := applyBidDeltas (toWorkingMap d.bids) payload.bids
  (((sortAsc asksTmp).foldl generateCalculatedOrderDetailsFromExisting (0, [])).2,
   ((sortDesc bidsTmp).foldl generateCalculatedOrderDetailsFromExisting (0, [])).2)

/-- Source function `handleDataUpdate`: `assert(prevState.type === 'Connected')` (so any
other variant, `Disconnected` included, throws, modelled as `none`);
merge the deltas into copies of both collections, re-sort and re-aggregate
each side, then rebuild `maxTotal` keeping both cursors and recomputing
`totalValue` from the clamped cursor lookups (which throw, `none`, when a
rebuilt collection is empty or a cursor is negative). -/
def handleDataUpdate (payload : DeltaPayload) (prevState : OrderBookState) :
    Option OrderBookState :=
  match prevState with
  | .connected d =>
    let c := dataUpdateCollections payload d
    match computeTotalValue c.1 c.2 d.lastVisibleAsksIndex d.lastVisibleBidsIndex with
    | some tv =>
      some (.connected { d with asks := c.1, bids := c.2, totalValue := tv })
    | none => none
  | _ => none

/-- Source function `handleLastVisibleItemIndexChange`: store the two cursors and recompute
`totalValue` from the clamped lookups over the unchanged collections. -/
def handleLastVisibleItemIndexChange (bidsIndex asksIndex : Int) (d : ConnectedData) :
    Option OrderBookState :=
  match computeTotalValue d.asks d.bids asksIndex bidsIndex with
  | some tv =>
    some (.connected
      { d with
        lastVisibleBidsIndex := bidsIndex
        lastVisibleAsksIndex := asksIndex
        totalValue := tv })
  | none => none

/-- Source function `handleUpdateLastVisibleBidsIndexChange`: asserts `Connected`, then
updates the bids cursor keeping the asks cursor. -/
def handleUpdateLastVisibleBidsIndexChange (bidsIndex : Int) (prevState : OrderBookState) :
    Option OrderBookState :=
  match prevState with
  | .connected d => handleLastVisibleItemIndexChange bidsIndex d.lastVisibleAsksIndex d
  | _ => none

/-- Source function `handleUpdateLastVisibleAsksIndexChange`: asserts `Connected`, then
updates the asks cursor keeping the bids cursor. -/
def handleUpdateLastVisibleAsksIndexChange (asksIndex : Int) (prevState : OrderBookState) :
    Option OrderBookState :=
  match prevState with
  | .connected d => handleLastVisibleItemIndexChange d.lastVisibleBidsIndex asksIndex d
  | _ => none

/-- The dispatch switch `_orderBookReducer`; `none` models an exception
escaping a handler (failed assertion or lookup `TypeError`). Connectivity,
info and confirmation actions return the state unchanged. -/
def orderBookReducer (prevState : OrderBookState) (action : OrderBookAction) :
    Option OrderBookState :=
  match action with
  | .openStream => some prevState
  | .closeStream => some prevState
  | .snapshotReceived p => some (handleSnapshotReceived p prevState)
  | .dataUpdate p => handleDataUpdate p prevState
  | .socketConnected => some prevState
  | .socketDisconnected => some prevState
  | .updateBidsLastVisibleIndex i => handleUpdateLastVisibleBidsIndexChange i prevState
  | .updateAsksLastVisibleIndex i => handleUpdateLastVisibleAsksIndexChange i prevState
  | .unsupportedBackendResponse => some prevState
  | .infoReceived => some prevState
  | .subscribeConfirmationReceived => some prevState

/-- Asks collection of a state, when it has one. -/
def stateAsks : OrderBookState → Option (List (Nat × CalculatedOrderDetails))
  | .connected d => some d.asks
  | .disconnected d => some d.asks
  | _ => none

/-- Bids collection of a state, when it has one. -/
def stateBids : OrderBookState → Option (List (Nat × CalculatedOrderDetails))
  | .connected d => some d.bids
  | .disconnected d => some d.bids
  | _ => none

/-- The (asks cursor, bids cursor) pair of a state, when it has one. -/
def stateCursors : OrderBookState → Option (Int × Int)
  | .connected d => some (d.lastVisibleAsksIndex, d.lastVisibleBidsIndex)
  | .disconnected d => some (d.lastVisibleAsksIndex, d.lastVisibleBidsIndex)
  | _ => none

/-- Stored scale value of a state, when it has one. -/
def stateTotalValue : OrderBookState → Option Nat
  | .connected d => some d.totalValue
  | .disconnected d => some d.totalValue
  | _ => none

example :
    handleSnapshotReceived ⟨7, 2, [(101, 2), (100, 3)], [(99, 1), (98, 4)]⟩ .neverLoaded
      = .connected
          { asks := [(100, ⟨100, 3, 3⟩), (101, ⟨101, 2, 5⟩)]
            bids := [(99, ⟨99, 1, 1⟩), (98, ⟨98, 4, 5⟩)]
            productId := 7
            numLevels := 2
            lastVisibleAsksIndex := 1
            lastVisibleBidsIndex := 1
            totalValue := 5 } := by
  decide

/-- Product id of a state, when it has one. -/
def stateProductId : OrderBookState → Option Nat
  | .connected d => some d.productId
  | .disconnected d => some d.productId
  | _ => none

/-- Display depth of a state, when it has one. -/
def stateNumLevels : OrderBookState → Option Nat
  | .connected d => some d.numLevels
  | .disconnected d => some d.numLevels
  | _ => none

/-- Keys (prices) of an association list, in order. -/
def keysOf {β : Type} (l : List (Nat × β)) : List Nat :=
  l.map Prod.fst

/-- Raw (price, size) pairs of a side collection, in collection order. -/
def sidePairs (side : List (Nat × CalculatedOrderDetails)) : List (Nat × Nat) :=
  side.map (fun e => (e.1, e.2.size))

/-- Modelled from the spec: annotate a (price, size) sequence with the
running prefix sum of sizes, each emitted total being the running sum
after that level. Used as the specification-side description of the
aggregation output. -/
def prefixAnnotate (t : Nat) : List (Nat × Nat) → List (Nat × CalculatedOrderDetails)
  | [] => []
  | e :: rest => (e.1, ⟨e.1, e.2, t + e.2⟩) :: prefixAnnotate (t + e.2) rest

/-- Sum of the sizes of a (price, size) sequence. -/
def sumSizes (l : List (Nat × Nat)) : Nat :=
  (l.map (fun e => e.2)).sum

/-- Modelled from the spec: contribution of one side to the scale, namely
the total at position `min(index, size - 1)` of the collection, and 0 for
an empty collection (the spec requires the empty side to contribute 0
rather than fail). -/
def clampedSideTotal (side : List (Nat × CalculatedOrderDetails)) (idx : Int) : Nat :=
  match side.get? (min idx ((side.length : Int) - 1)).toNat with
  | some e => e.2.total
  | none => 0

/-- Modelled from the spec: the scale value as the maximum of the two
clamped-cursor totals. -/
def clampedMax (asks bids : List (Nat × CalculatedOrderDetails)) (ai bi : Int) : Nat :=
  max (clampedSideTotal asks ai) (clampedSideTotal bids bi)

/-- Invariant claimed by the spec: in a `Connected` or `Disconnected`
state the stored `totalValue` is the maximum of the two clamped-cursor
totals. -/
def ScaleInvariant : OrderBookState → Prop
  | .connected d =>
    d.totalValue = clampedMax d.asks d.bids d.lastVisibleAsksIndex d.lastVisibleBidsIndex
  | .disconnected d =>
    d.totalValue = clampedMax d.asks d.bids d.lastVisibleAsksIndex d.lastVisibleBidsIndex
  | _ => True

/-- Clamped-cursor scale of a state per the spec formula, when the state
has collections. -/
def stateClampedMax : OrderBookState → Option Nat
  | .connected d =>
    some (clampedMax d.asks d.bids d.lastVisibleAsksIndex d.lastVisibleBidsIndex)
  | .disconnected d =>
    some (clampedMax d.asks d.bids d.lastVisibleAsksIndex d.lastVisibleBidsIndex)
  | _ => none

theorem foldl_generate_all_zero (l : List (Nat × Nat)) (h : ∀ e ∈ l, e.2 = 0)
    (acc : Nat × List (Nat × CalculatedOrderDetails)) :
    l.foldl generateCalculatedOrderDetails acc = acc := by
  induction l generalizing acc with
  | nil => rfl
  | cons e rest ih =>
    have he : e.2 = 0 := h e (List.mem_cons_self e rest)
    rw [List.foldl_cons,
      show generateCalculatedOrderDetails acc e = acc by
        simp [generateCalculatedOrderDetails, he]]
    exact ih (fun x hx => h x (List.mem_cons_of_mem e hx)) acc

theorem aggregateAsc_all_zero (l : List (Nat × Nat)) (h : ∀ e ∈ l, e.2 = 0) :
    aggregateAsc l = (0, []) :=
  foldl_generate_all_zero _ (fun e he => h e ((List.mem_insertionSort keyLE).mp he)) _

theorem aggregateDesc_all_zero (l : List (Nat × Nat)) (h : ∀ e ∈ l, e.2 = 0) :
    aggregateDesc l = (0, []) :=
  foldl_generate_all_zero _ (fun e he => h e ((List.mem_insertionSort keyGE).mp he)) _

/-- C1: the claim states that on BOTH sides a delta entry with size 0
removes a present price. On the bid side the source skips zero-size
entries without deleting: from an Active state whose bids contain price
99, the delta entry (99, 0) leaves the state unchanged, price 99
included, contradicting the claim (the spec design notes themselves flag
this asymmetry as an apparent slip, so the code, not the claim, is
defective). -/
theorem C1_bid_zero_size_delta_not_removed :
    handleDataUpdate ⟨[], [(99, 0)]⟩
        (.connected ⟨[(100, ⟨100, 2, 2⟩)], [(99, ⟨99, 1, 1⟩)], 0, 1, 0, 0, 2⟩) =
      some (.connected ⟨[(100, ⟨100, 2, 2⟩)], [(99, ⟨99, 1, 1⟩)], 0, 1, 0, 0, 2⟩) ∧
    99 ∈ keysOf [(99, (⟨99, 1, 1⟩ : CalculatedOrderDetails))] := by
  constructor
  · decide
  · decide

/-- C2 (counterexample): a snapshot arriving over a `Disconnected`
(Suspended) state with cursors (5, 5) resets both cursors to the new
`size - 1` (here 0) instead of preserving them, because the source only
spreads the previous cursors when `prevState.type === 'Connected'`. -/
theorem C2_counterexample_disconnected_cursors_reset :
    stateCursors
        (handleSnapshotReceived ⟨0, 1, [(1, 1)], [(2, 1)]⟩
          (.disconnected ⟨[(1, ⟨1, 1, 1⟩)], [(2, ⟨2, 1, 1⟩)], 0, 1, 5, 5, 1⟩)) =
      some (0, 0) ∧
    stateCursors
        (handleSnapshotReceived ⟨0, 1, [(1, 1)], [(2, 1)]⟩
          (.disconnected ⟨[(1, ⟨1, 1, 1⟩)], [(2, ⟨2, 1, 1⟩)], 0, 1, 5, 5, 1⟩)) ≠
      some (5, 5) := by
  constructor
  · decide
  · decide

/-- C2 (amended): the snapshot handler preserves the previous cursors
exactly when the previous state is `Connected` (Active); for every other
previous state, `Disconnected` (Suspended) included, both cursors are set
to the new collection sizes minus 1. -/
theorem C2_snapshot_cursor_rule (payload : SnapshotPayload) (prevState : OrderBookState) :
    stateCursors (handleSnapshotReceived payload prevState) =
      some (match prevState with
        | .connected d => (d.lastVisibleAsksIndex, d.lastVisibleBidsIndex)
        | _ => (((aggregateAsc payload.asks).2.length : Int) - 1,
                ((aggregateDesc payload.bids).2.length : Int) - 1)) := by
  cases prevState <;> rfl

/-- C3: per the claim the scale computation must not fail when a side is
empty (that side should contribute 0). In the source an empty collection
makes `Math.min(index, size - 1)` equal `-1`, indexing yields `undefined`
and reading `.total` throws; here the cursor-update handler on a state
with empty asks returns `none` (thrown `TypeError`) instead of a scale. -/
theorem C3_empty_side_lookup_throws :
    handleUpdateLastVisibleAsksIndexChange 0
        (.connected ⟨[], [(99, ⟨99, 1, 1⟩)], 0, 1, 0, 0, 1⟩) = none ∧
    computeTotalValue [] [(99, ⟨99, 1, 1⟩)] 0 0 = none := by
  constructor
  · decide
  · decide

/-- C6 (counterexample): applying a delta to a concrete `Disconnected`
(Suspended) state fails the `assert(prevState.type === 'Connected')` and
throws (`none`) instead of succeeding with an Active state as the claim
says. -/
theorem C6_counterexample_delta_on_disconnected :
    handleDataUpdate ⟨[(1, 1)], []⟩
        (.disconnected ⟨[(1, ⟨1, 1, 1⟩)], [(2, ⟨2, 1, 1⟩)], 0, 1, 0, 0, 1⟩) = none := by
  decide

/-- C6 (amended): from a `Disconnected` (Suspended) state, delta and
cursor-update events always fail the `Connected` assertion and abort;
only an Active (`Connected`) state accepts them. -/
theorem C6_disconnected_rejects_delta_and_cursor (d : ConnectedData) (p : DeltaPayload)
    (i : Int) :
    handleDataUpdate p (.disconnected d) = none ∧
    handleUpdateLastVisibleBidsIndexChange i (.disconnected d) = none ∧
    handleUpdateLastVisibleAsksIndexChange i (.disconnected d) = none :=
  ⟨rfl, rfl, rfl⟩

/-- C7: in the `NeverLoaded` and `ConnectedWaitingForData` states, a delta
or either cursor-update event makes the reducer raise the assertion error
(modelled by `none`): no unchanged, fabricated or silently no-op state is
returned. -/
theorem C7_loading_states_reject_delta_and_cursor (p : DeltaPayload) (i : Int) :
    orderBookReducer .neverLoaded (.dataUpdate p) = none ∧
    orderBookReducer .connectedWaitingForData (.dataUpdate p) = none ∧
    orderBookReducer .neverLoaded (.updateBidsLastVisibleIndex i) = none ∧
    orderBookReducer .connectedWaitingForData (.updateBidsLastVisibleIndex i) = none ∧
    orderBookReducer .neverLoaded (.updateAsksLastVisibleIndex i) = none ∧
    orderBookReducer .connectedWaitingForData (.updateAsksLastVisibleIndex i) = none :=
  ⟨rfl, rfl, rfl, rfl, rfl, rfl⟩

/-- C10: a snapshot whose sides are empty or contain only size-0 entries,
applied to `NeverLoaded` or `ConnectedWaitingForData`, succeeds and yields
an Active state with empty collections, both cursors `-1`, and scale 0. -/
theorem C10_empty_snapshot (payload : SnapshotPayload)
    (ha : ∀ e ∈ payload.asks, e.2 = 0) (hb : ∀ e ∈ payload.bids, e.2 = 0) :
    handleSnapshotReceived payload .neverLoaded =
      .connected ⟨[], [], payload.product_id, payload.numLevels, -1, -1, 0⟩ ∧
    handleSnapshotReceived payload .connectedWaitingForData =
      .connected ⟨[], [], payload.product_id, payload.numLevels, -1, -1, 0⟩ := by
  have hA := aggregateAsc_all_zero payload.asks ha
  have hB := aggregateDesc_all_zero payload.bids hb
  constructor <;> simp [handleSnapshotReceived, hA, hB]

/-- C10 (witness): the snapshot (product 7, depth 25, asks [(5, 0)],
empty bids) applied to `NeverLoaded` yields the empty Active state. -/
theorem C10_empty_snapshot_witness :
    handleSnapshotReceived ⟨7, 25, [(5, 0)], []⟩ .neverLoaded =
      .connected ⟨[], [], 7, 25, -1, -1, 0⟩ :=
  (C10_empty_snapshot ⟨7, 25, [(5, 0)], []⟩ (by decide) (by decide)).1

theorem scaleLookup_eq_clampedSideTotal {side : List (Nat × CalculatedOrderDetails)}
    {idx : Int} {t : Nat} (h : scaleLookup side idx = some t) :
    clampedSideTotal side idx = t := by
  unfold scaleLookup jsIndex at h
  unfold clampedSideTotal
  by_cases hneg : min idx ((side.length : Int) - 1) < 0
  · simp [hneg] at h
  · rw [if_neg hneg] at h
    obtain ⟨e, he, ht⟩ := Option.map_eq_some'.mp h
    rw [he]
    exact ht

theorem computeTotalValue_eq_clampedMax {asks bids : List (Nat × CalculatedOrderDetails)}
    {ai bi : Int} {tv : Nat} (h : computeTotalValue asks bids ai bi = some tv) :
    tv = clampedMax asks bids ai bi := by
  unfold computeTotalValue at h
  cases hb : scaleLookup bids bi with
  | none => rw [hb] at h; simp at h
  | some b =>
    cases ha : scaleLookup asks ai with
    | none => rw [hb, ha] at h; simp at h
    | some a =>
      rw [hb, ha] at h
      have hmax : max b a = tv := Option.some.inj h
      rw [clampedMax, scaleLookup_eq_clampedSideTotal ha,
        scaleLookup_eq_clampedSideTotal hb, ← hmax, Nat.max_comm]

/-- C4 (amended): every successful delta or cursor-update transition
re-establishes the invariant that the stored scale equals the maximum of
the two clamped-cursor totals. (The snapshot transition does not: it
stores the maximum of the two grand totals, see the counterexample.) -/
theorem C4_scale_invariant_after_delta_and_cursor_updates :
    (∀ (p : DeltaPayload) (s s2 : OrderBookState),
        handleDataUpdate p s = some s2 → ScaleInvariant s2) ∧
    (∀ (i : Int) (s s2 : OrderBookState),
        handleUpdateLastVisibleBidsIndexChange i s = some s2 → ScaleInvariant s2) ∧
    (∀ (i : Int) (s s2 : OrderBookState),
        handleUpdateLastVisibleAsksIndexChange i s = some s2 → ScaleInvariant s2) := by
  refine ⟨?_, ?_, ?_⟩
  · intro p s s2 h
    cases s with
    | connected d =>
      simp only [handleDataUpdate] at h
      cases htv : computeTotalValue (dataUpdateCollections p d).1 (dataUpdateCollections p d).2
          d.lastVisibleAsksIndex d.lastVisibleBidsIndex with
      | none => rw [htv] at h; simp at h
      | some tv =>
        rw [htv] at h
        simp only [Option.some.injEq] at h
        subst h
        exact computeTotalValue_eq_clampedMax htv
    | neverLoaded => simp [handleDataUpdate] at h
    | connectedWaitingForData => simp [handleDataUpdate] at h
    | disconnected d => simp [handleDataUpdate] at h
  · intro i s s2 h
    cases s with
    | connected d =>
      simp only [handleUpdateLastVisibleBidsIndexChange,
        handleLastVisibleItemIndexChange] at h
      cases htv : computeTotalValue d.asks d.bids d.lastVisibleAsksIndex i with
      | none => rw [htv] at h; simp at h
      | some tv =>
        rw [htv] at h
        simp only [Option.some.injEq] at h
        subst h
        exact computeTotalValue_eq_clampedMax htv
    | neverLoaded => simp [handleUpdateLastVisibleBidsIndexChange] at h
    | connectedWaitingForData => simp [handleUpdateLastVisibleBidsIndexChange] at h
    | disconnected d => simp [handleUpdateLastVisibleBidsIndexChange] at h
  · intro i s s2 h
    cases s with
    | connected d =>
      simp only [handleUpdateLastVisibleAsksIndexChange,
        handleLastVisibleItemIndexChange] at h
      cases htv : computeTotalValue d.asks d.bids i d.lastVisibleBidsIndex with
      | none => rw [htv] at h; simp at h
      | some tv =>
        rw [htv] at h
        simp only [Option.some.injEq] at h
        subst h
        exact computeTotalValue_eq_clampedMax htv
    | neverLoaded => simp [handleUpdateLastVisibleAsksIndexChange] at h
    | connectedWaitingForData => simp [handleUpdateLastVisibleAsksIndexChange] at h
    | disconnected d => simp [handleUpdateLastVisibleAsksIndexChange] at h

/-- C4 (witness): a concrete no-op delta on a small Active state succeeds
and the resulting state satisfies the scale invariant. -/
theorem C4_scale_invariant_witness :
    ScaleInvariant (.connected ⟨[(1, ⟨1, 1, 1⟩)], [(2, ⟨2, 3, 3⟩)], 0, 1, 0, 0, 3⟩) :=
  C4_scale_invariant_after_delta_and_cursor_updates.1 ⟨[], []⟩
    (.connected ⟨[(1, ⟨1, 1, 1⟩)], [(2, ⟨2, 3, 3⟩)], 0, 1, 0, 0, 3⟩)
    (.connected ⟨[(1, ⟨1, 1, 1⟩)], [(2, ⟨2, 3, 3⟩)], 0, 1, 0, 0, 3⟩) rfl

/-- C4 (counterexample): a second snapshot over an Active state whose
cursors sit at index 0 stores the grand-total maximum 2, while the
clamped-cursor maximum is 1 — the claimed invariant fails on a reachable
Active state right after a snapshot transition. -/
theorem C4_counterexample_snapshot_breaks_invariant :
    stateTotalValue
        (handleSnapshotReceived ⟨0, 2, [(1, 1), (2, 1)], [(3, 1)]⟩
          (handleSnapshotReceived ⟨0, 1, [(1, 1)], [(3, 1)]⟩ .neverLoaded)) = some 2 ∧
    stateClampedMax
        (handleSnapshotReceived ⟨0, 2, [(1, 1), (2, 1)], [(3, 1)]⟩
          (handleSnapshotReceived ⟨0, 1, [(1, 1)], [(3, 1)]⟩ .neverLoaded)) = some 1 := by
  constructor
  · decide
  · decide

/-- C9: whenever a delta transition from an Active state succeeds, the
resulting state keeps the productId, numLevels and both visible-window
cursors of the previous state; only collections and scale may change. -/
theorem C9_delta_frame (p : DeltaPayload) (d : ConnectedData) (s2 : OrderBookState)
    (h : handleDataUpdate p (.connected d) = some s2) :
    stateProductId s2 = some d.productId ∧ stateNumLevels s2 = some d.numLevels ∧
    stateCursors s2 = some (d.lastVisibleAsksIndex, d.lastVisibleBidsIndex) := by
  simp only [handleDataUpdate] at h
  cases htv : computeTotalValue (dataUpdateCollections p d).1 (dataUpdateCollections p d).2
      d.lastVisibleAsksIndex d.lastVisibleBidsIndex with
  | none => rw [htv] at h; simp at h
  | some tv =>
    rw [htv] at h
    simp only [Option.some.injEq] at h
    subst h
    exact ⟨rfl, rfl, rfl⟩

/-- C9 (witness): a concrete successful delta (insert price 101 size 5)
preserves productId 3, numLevels 2 and both cursors. -/
theorem C9_delta_frame_witness :
    stateProductId
        (.connected ⟨[(100, ⟨100, 2, 2⟩), (101, ⟨101, 5, 7⟩)], [(99, ⟨99, 1, 1⟩)],
          3, 2, 0, 0, 2⟩) = some 3 ∧
    stateNumLevels
        (.connected ⟨[(100, ⟨100, 2, 2⟩), (101, ⟨101, 5, 7⟩)], [(99, ⟨99, 1, 1⟩)],
          3, 2, 0, 0, 2⟩) = some 2 ∧
    stateCursors
        (.connected ⟨[(100, ⟨100, 2, 2⟩), (101, ⟨101, 5, 7⟩)], [(99, ⟨99, 1, 1⟩)],
          3, 2, 0, 0, 2⟩) = some (0, 0) :=
  C9_delta_frame ⟨[(101, 5)], []⟩ ⟨[(100, ⟨100, 2, 2⟩)], [(99, ⟨99, 1, 1⟩)], 3, 2, 0, 0, 2⟩
    (.connected ⟨[(100, ⟨100, 2, 2⟩), (101, ⟨101, 5, 7⟩)], [(99, ⟨99, 1, 1⟩)],
      3, 2, 0, 0, 2⟩) rfl

theorem mapSet_of_not_mem {β : Type} (m : List (Nat × β)) (k : Nat) (v : β)
    (h : k ∉ keysOf m) : mapSet m k v = m ++ [(k, v)] := by
  have hany : ¬(m.any (fun e => e.1 == k) = true) := by
    simp only [List.any_eq_true, beq_iff_eq]
    rintro ⟨e, hem, hek⟩
    exact h (List.mem_map.mpr ⟨e, hem, hek⟩)
  rw [mapSet, if_neg hany]

theorem foldl_generate_eq_prefixAnnotate (l : List (Nat × Nat)) :
    ∀ (t : Nat) (m : List (Nat × CalculatedOrderDetails)),
      (keysOf l).Nodup → (∀ k ∈ keysOf l, k ∉ keysOf m) →
      l.foldl generateCalculatedOrderDetails (t, m) =
        (t + sumSizes (l.filter (fun e => e.2 != 0)),
         m ++ prefixAnnotate t (l.filter (fun e => e.2 != 0))) := by
  induction l with
  | nil => intro t m _ _; simp [sumSizes, prefixAnnotate]
  | cons e rest ih =>
    intro t m hnd hdisj
    have hcons : keysOf (e :: rest) = e.1 :: keysOf rest := rfl
    rw [hcons] at hnd hdisj
    have hndr : (keysOf rest).Nodup := (List.nodup_cons.mp hnd).2
    by_cases hz : e.2 = 0
    · have hstep : generateCalculatedOrderDetails (t, m) e = (t, m) := by
        simp [generateCalculatedOrderDetails, hz]
      have hfil : (e :: rest).filter (fun x => x.2 != 0) =
          rest.filter (fun x => x.2 != 0) := by
        simp [List.filter_cons, hz]
      rw [List.foldl_cons, hstep, hfil,
        ih t m hndr (fun k hk => hdisj k (List.mem_cons_of_mem _ hk))]
    · have hstep : generateCalculatedOrderDetails (t, m) e =
          (t + e.2, mapSet m e.1 ⟨e.1, e.2, t + e.2⟩) := by
        simp [generateCalculatedOrderDetails, hz]
      have hnotm : e.1 ∉ keysOf m := hdisj e.1 (List.mem_cons_self _ _)
      have hset : mapSet m e.1 (⟨e.1, e.2, t + e.2⟩ : CalculatedOrderDetails) =
          m ++ [(e.1, ⟨e.1, e.2, t + e.2⟩)] :=
        mapSet_of_not_mem m e.1 _ hnotm
      have hdisj2 : ∀ k ∈ keysOf rest,
          k ∉ keysOf (m ++ [(e.1, (⟨e.1, e.2, t + e.2⟩ : CalculatedOrderDetails))]) := by
        intro k hk
        have h1 : k ∉ keysOf m := hdisj k (List.mem_cons_of_mem _ hk)
        have h2 : k ≠ e.1 := fun hke => (List.nodup_cons.mp hnd).1 (hke ▸ hk)
        simp only [keysOf, List.map_append, List.mem_append, List.map_cons, List.map_nil,
          List.mem_singleton]
        rintro (hm | hkey)
        · exact h1 hm
        · exact h2 hkey
      rw [List.foldl_cons, hstep, hset,
        ih (t + e.2) _ hndr hdisj2]
      have hfil : (e :: rest).filter (fun x => x.2 != 0) =
          e :: rest.filter (fun x => x.2 != 0) := by
        simp [List.filter_cons, hz]
      rw [hfil]
      simp [sumSizes, prefixAnnotate, Nat.add_assoc]

theorem aggregateAsc_eq_prefixAnnotate (l : List (Nat × Nat)) (h : (keysOf l).Nodup) :
    aggregateAsc l =
      (sumSizes ((sortAsc l).filter (fun e => e.2 != 0)),
       prefixAnnotate 0 ((sortAsc l).filter (fun e => e.2 != 0))) := by
  have hperm : List.Perm (keysOf (sortAsc l)) (keysOf l) :=
    (List.perm_insertionSort keyLE l).map Prod.fst
  have hnd : (keysOf (sortAsc l)).Nodup := hperm.nodup_iff.mpr h
  rw [aggregateAsc, foldl_generate_eq_prefixAnnotate (sortAsc l) 0 [] hnd
    (fun k _ => by simp [keysOf])]
  simp

theorem aggregateDesc_eq_prefixAnnotate (l : List (Nat × Nat)) (h : (keysOf l).Nodup) :
    aggregateDesc l =
      (sumSizes ((sortDesc l).filter (fun e => e.2 != 0)),
       prefixAnnotate 0 ((sortDesc l).filter (fun e => e.2 != 0))) := by
  have hperm : List.Perm (keysOf (sortDesc l)) (keysOf l) :=
    (List.perm_insertionSort keyGE l).map Prod.fst
  have hnd : (keysOf (sortDesc l)).Nodup := hperm.nodup_iff.mpr h
  rw [aggregateDesc, foldl_generate_eq_prefixAnnotate (sortDesc l) 0 [] hnd
    (fun k _ => by simp [keysOf])]
  simp

theorem keysOf_sortAsc_pairwise_le {β : Type} (l : List (Nat × β)) :
    (keysOf (sortAsc l)).Pairwise (· ≤ ·) :=
  List.Pairwise.map Prod.fst (fun _ _ hab => hab) (List.sorted_insertionSort keyLE l)

theorem keysOf_sortDesc_pairwise_ge {β : Type} (l : List (Nat × β)) :
    (keysOf (sortDesc l)).Pairwise (fun a b => b ≤ a) :=
  List.Pairwise.map Prod.fst (fun _ _ hab => hab) (List.sorted_insertionSort keyGE l)

theorem keysOf_filter_sublist {β : Type} (l : List (Nat × β)) (p : Nat × β → Bool) :
    List.Sublist (keysOf (l.filter p)) (keysOf l) :=
  (List.filter_sublist l).map Prod.fst

theorem pairwise_lt_of_pairwise_le_nodup {l : List Nat}
    (h1 : l.Pairwise (· ≤ ·)) (h2 : l.Nodup) : l.Pairwise (· < ·) := by
  induction l with
  | nil => exact List.Pairwise.nil
  | cons a t ih =>
    rw [List.pairwise_cons] at h1 ⊢
    rw [List.nodup_cons] at h2
    exact ⟨fun b hb => lt_of_le_of_ne (h1.1 b hb) (fun he => h2.1 (he ▸ hb)),
      ih h1.2 h2.2⟩

theorem pairwise_gt_of_pairwise_ge_nodup {l : List Nat}
    (h1 : l.Pairwise (fun a b => b ≤ a)) (h2 : l.Nodup) :
    l.Pairwise (fun a b => b < a) := by
  induction l with
  | nil => exact List.Pairwise.nil
  | cons a t ih =>
    rw [List.pairwise_cons] at h1 ⊢
    rw [List.nodup_cons] at h2
    exact ⟨fun b hb => lt_of_le_of_ne (h1.1 b hb) (fun he => h2.1 (he.symm ▸ hb)),
      ih h1.2 h2.2⟩

theorem keysOf_prefixAnnotate : ∀ (t : Nat) (l : List (Nat × Nat)),
    keysOf (prefixAnnotate t l) = keysOf l
  | _, [] => rfl
  | t, e :: rest => by
    show e.1 :: keysOf (prefixAnnotate (t + e.2) rest) = e.1 :: keysOf rest
    rw [keysOf_prefixAnnotate]

theorem eq_of_mem_of_nodup_keys {β : Type} {l : List (Nat × β)}
    (h : (keysOf l).Nodup) {e f : Nat × β} (he : e ∈ l) (hf : f ∈ l) (hk : e.1 = f.1) :
    e = f := by
  induction l with
  | nil => cases he
  | cons a t ih =>
    have hcons : keysOf (a :: t) = a.1 :: keysOf t := rfl
    rw [hcons, List.nodup_cons] at h
    cases he with
    | head =>
      cases hf with
      | head => rfl
      | tail _ hf2 =>
        exfalso
        apply h.1
        rw [hk]
        exact List.mem_map.mpr ⟨f, hf2, rfl⟩
    | tail _ he2 =>
      cases hf with
      | head =>
        exfalso
        apply h.1
        rw [← hk]
        exact List.mem_map.mpr ⟨e, he2, rfl⟩
      | tail _ hf2 => exact ih h.2 he2 hf2

/-- C5: for an input of (price, size) pairs with unique prices, the asks
aggregation emits levels whose prices are strictly ascending and whose
entries are exactly the ascending-sorted nonzero-size pairs annotated with
running prefix sums (`prefixAnnotate`); the same input aggregated as bids
gives strictly descending prices with prefix sums in that order; the grand
total is the sum of the nonzero sizes; and a size-0 entry never reaches
either resulting collection (nor its running sum, since the annotation
ranges over the zero-filtered list only). -/
theorem C5_aggregation_sorted_prefix_sums (input : List (Nat × Nat))
    (h : (keysOf input).Nodup) :
    (aggregateAsc input).2 =
      prefixAnnotate 0 ((sortAsc input).filter (fun e => e.2 != 0)) ∧
    (keysOf (aggregateAsc input).2).Pairwise (· < ·) ∧
    (aggregateAsc input).1 = sumSizes ((sortAsc input).filter (fun e => e.2 != 0)) ∧
    (∀ e ∈ input, e.2 = 0 → e.1 ∉ keysOf (aggregateAsc input).2) ∧
    (aggregateDesc input).2 =
      prefixAnnotate 0 ((sortDesc input).filter (fun e => e.2 != 0)) ∧
    (keysOf (aggregateDesc input).2).Pairwise (fun a b => b < a) ∧
    (aggregateDesc input).1 = sumSizes ((sortDesc input).filter (fun e => e.2 != 0)) ∧
    (∀ e ∈ input, e.2 = 0 → e.1 ∉ keysOf (aggregateDesc input).2) := by
  have hA := aggregateAsc_eq_prefixAnnotate input h
  have hB := aggregateDesc_eq_prefixAnnotate input h
  have hA2 : (aggregateAsc input).2 =
      prefixAnnotate 0 ((sortAsc input).filter (fun e => e.2 != 0)) := by rw [hA]
  have hA1 : (aggregateAsc input).1 =
      sumSizes ((sortAsc input).filter (fun e => e.2 != 0)) := by rw [hA]
  have hB2 : (aggregateDesc input).2 =
      prefixAnnotate 0 ((sortDesc input).filter (fun e => e.2 != 0)) := by rw [hB]
  have hB1 : (aggregateDesc input).1 =
      sumSizes ((sortDesc input).filter (fun e => e.2 != 0)) := by rw [hB]
  have hkA : keysOf (aggregateAsc input).2 =
      keysOf ((sortAsc input).filter (fun e => e.2 != 0)) := by
    rw [hA2, keysOf_prefixAnnotate]
  have hkB : keysOf (aggregateDesc input).2 =
      keysOf ((sortDesc input).filter (fun e => e.2 != 0)) := by
    rw [hB2, keysOf_prefixAnnotate]
  have hndSA : (keysOf (sortAsc input)).Nodup :=
    (((List.perm_insertionSort keyLE input).map Prod.fst).nodup_iff).mpr h
  have hndSB : (keysOf (sortDesc input)).Nodup :=
    (((List.perm_insertionSort keyGE input).map Prod.fst).nodup_iff).mpr h
  have hndFA : (keysOf ((sortAsc input).filter (fun e => e.2 != 0))).Nodup :=
    hndSA.sublist (keysOf_filter_sublist _ _)
  have hndFB : (keysOf ((sortDesc input).filter (fun e => e.2 != 0))).Nodup :=
    hndSB.sublist (keysOf_filter_sublist _ _)
  have hleFA : (keysOf ((sortAsc input).filter (fun e => e.2 != 0))).Pairwise (· ≤ ·) :=
    List.Pairwise.sublist (keysOf_filter_sublist _ _) (keysOf_sortAsc_pairwise_le input)
  have hgeFB : (keysOf ((sortDesc input).filter (fun e => e.2 != 0))).Pairwise
      (fun a b => b ≤ a) :=
    List.Pairwise.sublist (keysOf_filter_sublist _ _) (keysOf_sortDesc_pairwise_ge input)
  refine ⟨hA2, ?_, hA1, ?_, hB2, ?_, hB1, ?_⟩
  · rw [hkA]
    exact pairwise_lt_of_pairwise_le_nodup hleFA hndFA
  · intro e he hz hmem
    rw [hkA] at hmem
    obtain ⟨f, hf, hfk⟩ := List.mem_map.mp hmem
    have hfs := List.mem_filter.mp hf
    have hfi : f ∈ input := (List.mem_insertionSort keyLE).mp hfs.1
    have hef : e = f := eq_of_mem_of_nodup_keys h he hfi hfk.symm
    rw [← hef] at hfs
    exact absurd hz (by simpa using hfs.2)
  · rw [hkB]
    exact pairwise_gt_of_pairwise_ge_nodup hgeFB hndFB
  · intro e he hz hmem
    rw [hkB] at hmem
    obtain ⟨f, hf, hfk⟩ := List.mem_map.mp hmem
    have hfs := List.mem_filter.mp hf
    have hfi : f ∈ input := (List.mem_insertionSort keyGE).mp hfs.1
    have hef : e = f := eq_of_mem_of_nodup_keys h he hfi hfk.symm
    rw [← hef] at hfs
    exact absurd hz (by simpa using hfs.2)

/-- C5 (witness): aggregating [(101, 2), (100, 3), (50, 0)] as asks yields
ascending levels (100, total 3), (101, total 5) and as bids descending
levels (101, total 2), (100, total 5); the size-0 entry at price 50 is
dropped on both sides. -/
theorem C5_aggregation_witness :
    (aggregateAsc [(101, 2), (100, 3), (50, 0)]).2 =
      [(100, ⟨100, 3, 3⟩), (101, ⟨101, 2, 5⟩)] ∧
    (aggregateDesc [(101, 2), (100, 3), (50, 0)]).2 =
      [(101, ⟨101, 2, 2⟩), (100, ⟨100, 3, 5⟩)] :=
  ⟨((C5_aggregation_sorted_prefix_sums [(101, 2), (100, 3), (50, 0)] (by decide)).1).trans
      (by decide),
   ((C5_aggregation_sorted_prefix_sums [(101, 2), (100, 3), (50, 0)]
      (by decide)).2.2.2.2.1).trans (by decide)⟩

/-- Canonical well-formedness of an asks collection: entries are exactly
their own (price, size) pairs annotated with prefix-sum totals, prices
strictly ascending, no zero sizes (all states built by the aggregator
satisfy this). -/
def WFAsks (side : List (Nat × CalculatedOrderDetails)) : Prop :=
  side = prefixAnnotate 0 (sidePairs side) ∧
  (keysOf side).Pairwise (· < ·) ∧
  ∀ e ∈ side, e.2.size ≠ 0

/-- Canonical well-formedness of a bids collection: as `WFAsks` but with
strictly descending prices. -/
def WFBids (side : List (Nat × CalculatedOrderDetails)) : Prop :=
  side = prefixAnnotate 0 (sidePairs side) ∧
  (keysOf side).Pairwise (fun a b => b < a) ∧
  ∀ e ∈ side, e.2.size ≠ 0

theorem map_ite_key_eq_self {β : Type} (A : List (Nat × β)) (k : Nat) (w : Nat × β)
    (hA : k ∉ keysOf A) :
    A.map (fun e => if e.1 == k then w else e) = A := by
  induction A with
  | nil => rfl
  | cons a t ih =>
    have hcons : keysOf (a :: t) = a.1 :: keysOf t := rfl
    rw [hcons] at hA
    have hk : a.1 ≠ k := fun hek => hA (hek ▸ List.mem_cons_self _ _)
    have ht : k ∉ keysOf t := fun hkt => hA (List.mem_cons_of_mem _ hkt)
    rw [List.map_cons, if_neg (by simp [hk]), ih ht]

theorem mapSet_replace {β : Type} (A B : List (Nat × β)) (k : Nat) (v w : β)
    (hA : k ∉ keysOf A) (hB : k ∉ keysOf B) :
    mapSet (A ++ (k, v) :: B) k w = A ++ (k, w) :: B := by
  have hany : (A ++ (k, v) :: B).any (fun e => e.1 == k) = true :=
    List.any_eq_true.mpr
      ⟨(k, v), List.mem_append_right _ (List.mem_cons_self _ _), by simp⟩
  rw [mapSet, if_pos hany, List.map_append, List.map_cons,
    map_ite_key_eq_self A k (k, w) hA, map_ite_key_eq_self B k (k, w) hB]
  simp

theorem keysOf_map_raw (l : List (Nat × CalculatedOrderDetails)) :
    keysOf (l.map (fun e => (e.1, OrderDetails.raw e.1 e.2.size))) = keysOf l := by
  rw [keysOf, List.map_map]
  rfl

theorem keysOf_sidePairs (l : List (Nat × CalculatedOrderDetails)) :
    keysOf (sidePairs l) = keysOf l := by
  rw [keysOf, sidePairs, List.map_map]
  rfl

theorem foldl_mapSet_raw_replace :
    ∀ (todo done : List (Nat × CalculatedOrderDetails)),
      (keysOf (done ++ todo)).Nodup →
      (todo.map (fun e => (e.1, e.2.size))).foldl
          (fun m e => mapSet m e.1 (OrderDetails.raw e.1 e.2))
          (done.map (fun e => (e.1, OrderDetails.raw e.1 e.2.size)) ++
            todo.map (fun e => (e.1, OrderDetails.calcd e.2)))
        = (done ++ todo).map (fun e => (e.1, OrderDetails.raw e.1 e.2.size))
  | [], done, _ => by simp
  | e :: rest, done, hnd => by
    have hka : keysOf (done ++ e :: rest) = keysOf done ++ e.1 :: keysOf rest := by
      rw [keysOf, List.map_append]
      rfl
    rw [hka] at hnd
    obtain ⟨hd1, hd2, hdisj⟩ := List.nodup_append.mp hnd
    have hke_done : e.1 ∉ keysOf done :=
      fun hmem => (hdisj hmem) (List.mem_cons_self _ _)
    have hke_rest : e.1 ∉ keysOf rest := (List.nodup_cons.mp hd2).1
    have hstep : mapSet
        (done.map (fun x => (x.1, OrderDetails.raw x.1 x.2.size)) ++
          (e.1, OrderDetails.calcd e.2) :: rest.map (fun x => (x.1, OrderDetails.calcd x.2)))
        e.1 (OrderDetails.raw e.1 e.2.size)
        = done.map (fun x => (x.1, OrderDetails.raw x.1 x.2.size)) ++
          (e.1, OrderDetails.raw e.1 e.2.size) :: rest.map (fun x => (x.1, OrderDetails.calcd x.2)) := by
      apply mapSet_replace
      · rw [keysOf_map_raw]
        exact hke_done
      · rw [show keysOf (rest.map (fun x => (x.1, OrderDetails.calcd x.2))) = keysOf rest from by
          rw [keysOf, List.map_map]; rfl]
        exact hke_rest
    have hnd2 : (keysOf ((done ++ [e]) ++ rest)).Nodup := by
      rw [List.append_assoc, List.singleton_append, hka]
      exact hnd
    have hrec := foldl_mapSet_raw_replace rest (done ++ [e]) hnd2
    rw [show (e :: rest).map (fun x => (x.1, x.2.size)) =
        (e.1, e.2.size) :: rest.map (fun x => (x.1, x.2.size)) from rfl,
      show (e :: rest).map (fun x => (x.1, OrderDetails.calcd x.2)) =
        (e.1, OrderDetails.calcd e.2) :: rest.map (fun x => (x.1, OrderDetails.calcd x.2))
        from rfl]
    simp only [List.foldl_cons]
    rw [hstep,
      show done.map (fun x => (x.1, OrderDetails.raw x.1 x.2.size)) ++
          (e.1, OrderDetails.raw e.1 e.2.size) ::
            rest.map (fun x => (x.1, OrderDetails.calcd x.2)) =
        (done ++ [e]).map (fun x => (x.1, OrderDetails.raw x.1 x.2.size)) ++
          rest.map (fun x => (x.1, OrderDetails.calcd x.2)) from by simp]
    exact hrec.trans (by rw [List.append_assoc, List.singleton_append])

theorem applyAskDeltas_of_nonzero (deltas : List (Nat × Nat)) :
    ∀ (m : List (Nat × OrderDetails)), (∀ e ∈ deltas, e.2 ≠ 0) →
      applyAskDeltas m deltas =
        deltas.foldl (fun m e => mapSet m e.1 (OrderDetails.raw e.1 e.2)) m := by
  induction deltas with
  | nil => intro m _; rfl
  | cons e rest ih =>
    intro m h
    have h0 : e.2 ≠ 0 := h e (List.mem_cons_self _ _)
    show List.foldl _ (if e.2 = 0 then mapDelete m e.1 else mapSet m e.1 (.raw e.1 e.2)) rest = _
    rw [if_neg h0, List.foldl_cons]
    exact ih _ (fun x hx => h x (List.mem_cons_of_mem _ hx))

theorem applyBidDeltas_of_nonzero (deltas : List (Nat × Nat)) :
    ∀ (m : List (Nat × OrderDetails)), (∀ e ∈ deltas, e.2 ≠ 0) →
      applyBidDeltas m deltas =
        deltas.foldl (fun m e => mapSet m e.1 (OrderDetails.raw e.1 e.2)) m := by
  induction deltas with
  | nil => intro m _; rfl
  | cons e rest ih =>
    intro m h
    have h0 : e.2 ≠ 0 := h e (List.mem_cons_self _ _)
    show List.foldl _ (if e.2 = 0 then m else mapSet m e.1 (.raw e.1 e.2)) rest = _
    rw [if_neg h0, List.foldl_cons]
    exact ih _ (fun x hx => h x (List.mem_cons_of_mem _ hx))

theorem foldl_fromExisting_eq_generate (l : List (Nat × OrderDetails))
    (acc : Nat × List (Nat × CalculatedOrderDetails)) :
    l.foldl generateCalculatedOrderDetailsFromExisting acc =
      (l.map (fun e => (e.1, e.2.size))).foldl generateCalculatedOrderDetails acc := by
  rw [List.foldl_map]
  rfl

theorem sortAsc_eq_self_of_keys_lt {β : Type} (l : List (Nat × β))
    (h : (keysOf l).Pairwise (· < ·)) : sortAsc l = l :=
  List.Sorted.insertionSort_eq
    ((List.pairwise_map.mp h).imp (fun hab => le_of_lt hab))

theorem sortDesc_eq_self_of_keys_gt {β : Type} (l : List (Nat × β))
    (h : (keysOf l).Pairwise (fun a b => b < a)) : sortDesc l = l :=
  List.Sorted.insertionSort_eq
    ((List.pairwise_map.mp h).imp (fun hab => le_of_lt hab))

theorem scaleLookup_isSome (side : List (Nat × CalculatedOrderDetails)) (idx : Int)
    (h0 : side ≠ []) (hi : 0 ≤ idx) : ∃ t, scaleLookup side idx = some t := by
  have hlen : 0 < side.length := List.length_pos.mpr h0
  have hle : min idx ((side.length : Int) - 1) ≤ (side.length : Int) - 1 :=
    min_le_right _ _
  have hj0 : 0 ≤ min idx ((side.length : Int) - 1) := le_min hi (by omega)
  have hjlt : (min idx ((side.length : Int) - 1)).toNat < side.length := by omega
  refine ⟨(side.get ⟨(min idx ((side.length : Int) - 1)).toNat, hjlt⟩).2.total, ?_⟩
  rw [scaleLookup, jsIndex, if_neg (not_lt.mpr hj0), List.get?_eq_get hjlt]
  rfl

theorem rebuildAsks_noop (side : List (Nat × CalculatedOrderDetails)) (hwf : WFAsks side) :
    ((sortAsc (applyAskDeltas (toWorkingMap side) (sidePairs side))).foldl
        generateCalculatedOrderDetailsFromExisting (0, [])).2 = side := by
  obtain ⟨heq, hlt, hsz⟩ := hwf
  have hnd : (keysOf side).Nodup := hlt.imp (fun hab => ne_of_lt hab)
  have hnz : ∀ e ∈ sidePairs side, e.2 ≠ 0 := by
    intro e he
    obtain ⟨f, hf, hfe⟩ := List.mem_map.mp he
    rw [← hfe]
    exact hsz f hf
  have h1 : applyAskDeltas (toWorkingMap side) (sidePairs side) =
      side.map (fun e => (e.1, OrderDetails.raw e.1 e.2.size)) := by
    rw [applyAskDeltas_of_nonzero _ _ hnz]
    have hrep := foldl_mapSet_raw_replace side [] (by simpa using hnd)
    simpa [sidePairs, toWorkingMap] using hrep
  rw [h1, sortAsc_eq_self_of_keys_lt _ (by rw [keysOf_map_raw]; exact hlt),
    foldl_fromExisting_eq_generate]
  have hmapmap : (side.map (fun e => (e.1, OrderDetails.raw e.1 e.2.size))).map
      (fun e => (e.1, e.2.size)) = sidePairs side := by
    rw [List.map_map, sidePairs]
    rfl
  rw [hmapmap]
  have hknd : (keysOf (sidePairs side)).Nodup := by
    rw [keysOf_sidePairs]
    exact hnd
  rw [foldl_generate_eq_prefixAnnotate (sidePairs side) 0 [] hknd
    (fun k hk => by simp [keysOf])]
  have hfil : (sidePairs side).filter (fun e => e.2 != 0) = sidePairs side :=
    List.filter_eq_self.mpr (fun e he => by simpa using hnz e he)
  rw [hfil]
  simpa using heq.symm

theorem rebuildBids_noop (side : List (Nat × CalculatedOrderDetails)) (hwf : WFBids side) :
    ((sortDesc (applyBidDeltas (toWorkingMap side) (sidePairs side))).foldl
        generateCalculatedOrderDetailsFromExisting (0, [])).2 = side := by
  obtain ⟨heq, hgt, hsz⟩ := hwf
  have hnd : (keysOf side).Nodup := hgt.imp (fun hab => (ne_of_lt hab).symm)
  have hnz : ∀ e ∈ sidePairs side, e.2 ≠ 0 := by
    intro e he
    obtain ⟨f, hf, hfe⟩ := List.mem_map.mp he
    rw [← hfe]
    exact hsz f hf
  have h1 : applyBidDeltas (toWorkingMap side) (sidePairs side) =
      side.map (fun e => (e.1, OrderDetails.raw e.1 e.2.size)) := by
    rw [applyBidDeltas_of_nonzero _ _ hnz]
    have hrep := foldl_mapSet_raw_replace side [] (by simpa using hnd)
    simpa [sidePairs, toWorkingMap] using hrep
  rw [h1, sortDesc_eq_self_of_keys_gt _ (by rw [keysOf_map_raw]; exact hgt),
    foldl_fromExisting_eq_generate]
  have hmapmap : (side.map (fun e => (e.1, OrderDetails.raw e.1 e.2.size))).map
      (fun e => (e.1, e.2.size)) = sidePairs side := by
    rw [List.map_map, sidePairs]
    rfl
  rw [hmapmap]
  have hknd : (keysOf (sidePairs side)).Nodup := by
    rw [keysOf_sidePairs]
    exact hnd
  rw [foldl_generate_eq_prefixAnnotate (sidePairs side) 0 [] hknd
    (fun k hk => by simp [keysOf])]
  have hfil : (sidePairs side).filter (fun e => e.2 != 0) = sidePairs side :=
    List.filter_eq_self.mpr (fun e he => by simpa using hnz e he)
  rw [hfil]
  simpa using heq.symm

/-- C8 (amended): from an Active state whose collections are in canonical
aggregator form (strictly sorted, no zero sizes, prefix-sum totals), both
nonempty, with non-negative cursors, the delta that restates both sides
own (price, size) pairs succeeds and reproduces exactly the same asks and
bids collections (identical levels and totals); the scale is recomputed
from the clamped cursors. -/
theorem C8_noop_delta_reproduces_collections (d : ConnectedData)
    (hA : WFAsks d.asks) (hB : WFBids d.bids)
    (hA0 : d.asks ≠ []) (hB0 : d.bids ≠ [])
    (hia : 0 ≤ d.lastVisibleAsksIndex) (hib : 0 ≤ d.lastVisibleBidsIndex) :
    handleDataUpdate ⟨sidePairs d.asks, sidePairs d.bids⟩ (.connected d) =
      some (.connected
        { d with
          totalValue :=
            clampedMax d.asks d.bids d.lastVisibleAsksIndex d.lastVisibleBidsIndex }) := by
  have hasks : (dataUpdateCollections ⟨sidePairs d.asks, sidePairs d.bids⟩ d).1 = d.asks :=
    rebuildAsks_noop d.asks hA
  have hbids : (dataUpdateCollections ⟨sidePairs d.asks, sidePairs d.bids⟩ d).2 = d.bids :=
    rebuildBids_noop d.bids hB
  obtain ⟨ta, hta⟩ := scaleLookup_isSome d.asks d.lastVisibleAsksIndex hA0 hia
  obtain ⟨tb, htb⟩ := scaleLookup_isSome d.bids d.lastVisibleBidsIndex hB0 hib
  have htv : computeTotalValue d.asks d.bids d.lastVisibleAsksIndex d.lastVisibleBidsIndex
      = some (max tb ta) := by
    rw [computeTotalValue, htb, hta]
  have hcm : max tb ta =
      clampedMax d.asks d.bids d.lastVisibleAsksIndex d.lastVisibleBidsIndex :=
    computeTotalValue_eq_clampedMax htv
  simp only [handleDataUpdate, hasks, hbids, htv, hcm]

/-- C8 (counterexample): the Active state with empty collections (exactly
what an empty snapshot produces, cursors -1) violates the claim as stated:
the no-op delta (empty lists restate the empty sides) throws during the
scale recomputation instead of yielding a state with identical
collections. -/
theorem C8_counterexample_noop_delta_on_empty_state :
    handleDataUpdate ⟨[], []⟩ (.connected ⟨[], [], 0, 0, -1, -1, 0⟩) = none := by
  decide

/-- C8 (witness): the no-op delta restating the worked-example collections
(asks 100/101, bids 99/98, cursors at 1) succeeds and returns the very
same collections and scale 5. -/
theorem C8_noop_delta_witness :
    handleDataUpdate ⟨[(100, 2), (101, 3)], [(99, 1), (98, 4)]⟩
        (.connected ⟨[(100, ⟨100, 2, 2⟩), (101, ⟨101, 3, 5⟩)],
          [(99, ⟨99, 1, 1⟩), (98, ⟨98, 4, 5⟩)], 0, 2, 1, 1, 5⟩) =
      some (.connected ⟨[(100, ⟨100, 2, 2⟩), (101, ⟨101, 3, 5⟩)],
          [(99, ⟨99, 1, 1⟩), (98, ⟨98, 4, 5⟩)], 0, 2, 1, 1, 5⟩) :=
  C8_noop_delta_reproduces_collections
    ⟨[(100, ⟨100, 2, 2⟩), (101, ⟨101, 3, 5⟩)],
      [(99, ⟨99, 1, 1⟩), (98, ⟨98, 4, 5⟩)], 0, 2, 1, 1, 5⟩
    (by constructor
        · decide
        · constructor
          · decide
          · decide)
    (by constructor
        · decide
        · constructor
          · decide
          · decide)
    (by decide) (by decide) (by decide) (by decide)
